import Mathlib

/-!
# people.js: formatting and rendering of the People page

A shallow embedding of `src/js/people.js`.

* JavaScript strings are Lean `String`s (sequences of code points; every
  character the source inspects lies in the Basic Multilingual Plane).
* A field of a person record is an `Option String`: `none` is an absent
  field, `some v` a string value.  The source tests fields by JavaScript
  truthiness (`if (x)`, `!x`, `x || d`), which for an optional string means
  "holds a non-empty string"; `truthy` is that test.
* DOM elements are `Node` trees: tag, attributes in the order the source sets
  them, children.
* The document is seen through `getElementById`: an identifier is mapped to
  the child list of the element carrying it, or to `none`.
-/

namespace People

/-! ## JavaScript string primitives -/

/-- Truthiness of an optional string value: absent and `""` are falsy. -/
def truthy : Option String → Bool
  | none => false
  | some v => v != ""

/-- The value of `x || d` for an optional string `x`. -/
def orElse (x : Option String) (d : String) : String :=
  match x with
  | none => d
  | some v => if v != "" then v else d

/-- Code points removed by `String.prototype.trim`: ECMAScript WhiteSpace and
LineTerminator. -/
def isTrimChar (c : Char) : Bool :=
  let n := c.toNat
  n == 0x09 || n == 0x0A || n == 0x0B || n == 0x0C || n == 0x0D || n == 0x20 ||
  n == 0xA0 || n == 0x1680 || (0x2000 ≤ n && n ≤ 0x200A) || n == 0x2028 ||
  n == 0x2029 || n == 0x202F || n == 0x205F || n == 0x3000 || n == 0xFEFF

/-- Body of `trim` on the character sequence: leading, then trailing
white space is removed. -/
def trimChars (l : List Char) : List Char :=
  (l.dropWhile isTrimChar).rdropWhile isTrimChar

/-- `s.trim()`. -/
def trim (s : String) : String := ⟨trimChars s.data⟩

/-- `formatPeriod(start, end)`, lines 25-32. -/
def formatPeriod (start end_ : Option String) : String :=
  let s := trim (orElse start "")
  let e := trim (orElse end_ "")
  if s == "" && e == "" then ""
  else if s != "" && e == "" then s ++ " - "
  else if s != "" && e != "" then s ++ " - " ++ e
  else "- " ++ e

/-- Canonical form of a character under the `i` flag of a regular expression
without the `u` flag.  A pattern made of Basic Latin characters only matches
Basic Latin characters (canonicalisation never maps a character above U+007F
into Basic Latin), so letters `a`-`z` are folded to upper case and every other
character stands for itself. -/
def canonicalize (c : Char) : Char := c.toUpper

/-- The test `/^pat/i.test(s)` for a literal pattern `pat` of Basic Latin
characters: `s` begins with `pat`, letter case ignored. -/
def startsWithIgnoreCase (pat s : String) : Bool :=
  (pat.data.map canonicalize).isPrefixOf (s.data.map canonicalize)

/-- `/^mailto:/i.test(href)`, line 10. -/
def isMailto (href : String) : Bool := startsWithIgnoreCase "mailto:" href

/-- `/^https?:\/\//i.test(link)`, line 18. -/
def isHttpLink (link : String) : Bool :=
  startsWithIgnoreCase "http://" link || startsWithIgnoreCase "https://" link

/-- Lower-case image of one character, as far as it matters for comparing with
Basic Latin text: `A`-`Z`, the Kelvin sign (to `k`) and the dotted capital I
(to `i` followed by U+0307) are the only characters whose lower-case image
contains a Basic Latin character.  Other characters are left as they are. -/
def lowerChar (c : Char) : List Char :=
  if c.toNat == 0x212A then ['k']
  else if c.toNat == 0x130 then ['i', Char.ofNat 0x307]
  else [c.toLower]

/-- `s.toLowerCase()`. -/
def toLowerCase (s : String) : String := ⟨s.data.flatMap lowerChar⟩

/-- `bits.join(sep)` on an array of strings. -/
def join (sep : String) : List String → String
  | [] => ""
  | [x] => x
  | x :: y :: rest => x ++ sep ++ join sep (y :: rest)

/-! ## DOM nodes -/

/-- A DOM node: a text node, or an element with its tag, its attributes in the
order they were set, and its children. -/
inductive Node where
  | text (data : String)
  | element (tag : String) (attrs : List (String × String)) (children : List Node)

/-- `document.createElement(tag)`. -/
def createElement (tag : String) : Node := .element tag [] []

/-- Replace the value of attribute `k` where it occurs. -/
def replaceAttr (k v : String) : List (String × String) → List (String × String)
  | [] => []
  | (k', v') :: rest => if k' == k then (k, v) :: rest else (k', v') :: replaceAttr k v rest

/-- `el.setAttribute(k, v)`, also used for the reflecting properties
`className`, `href`, `target`, `rel`, `src`, `alt`, `loading`, `decoding`. -/
def setAttribute (n : Node) (k v : String) : Node :=
  match n with
  | .text d => .text d
  | .element tag attrs children =>
    if attrs.any (fun kv => kv.1 == k) then .element tag (replaceAttr k v attrs) children
    else .element tag (attrs ++ [(k, v)]) children

/-- `el.getAttribute(k)`. -/
def getAttribute (n : Node) (k : String) : Option String :=
  match n with
  | .text _ => none
  | .element _ attrs _ => (attrs.find? (fun kv => kv.1 == k)).map (fun kv => kv.2)

/-- `el.textContent = s`: the children become one text node, or none at all
when `s` is empty. -/
def setTextContent (n : Node) (s : String) : Node :=
  match n with
  | .text _ => .text s
  | .element tag attrs _ => .element tag attrs (if s == "" then [] else [.text s])

/-- `el.appendChild(c)`, `el.append(c)`. -/
def appendChild (n c : Node) : Node :=
  match n with
  | .text d => .text d
  | .element tag attrs children => .element tag attrs (children ++ [c])

/-- Child nodes of a node. -/
def childNodes : Node → List Node
  | .text _ => []
  | .element _ _ children => children

/-- Tag of an element. -/
def tagName : Node → Option String
  | .text _ => none
  | .element tag _ _ => some tag

/-- The text held by the text-node children of an element: its `textContent`
when every child is a text node. -/
def textOf (n : Node) : String :=
  match n with
  | .text d => d
  | .element _ _ children =>
    join "" (children.map (fun c => match c with | .text d => d | .element _ _ _ => ""))

/-! ## The document -/

/-- The page as `getElementById` sees it: the children of the element that
carries an identifier, `none` when no element does.  The containers the
script writes to are separate elements of the host page. -/
abbrev Document := String → Option (List Node)

/-- `document.getElementById(id)`. -/
def getElementById (doc : Document) (id : String) : Option (List Node) := doc id

/-- Replace the children of the element `id` (assignment to `innerHTML`). -/
def setChildren (doc : Document) (id : String) (kids : List Node) : Document :=
  fun i => if i = id then (doc i).map (fun _ => kids) else doc i

/-- Append node `c` to the element `id` (`el.appendChild(c)` on a container). -/
def appendToContainer (doc : Document) (id : String) (c : Node) : Document :=
  fun i => if i = id then (doc i).map (fun kids => kids ++ [c]) else doc i

/-! ## Person records -/

/-- A person record of `students.json`. -/
structure Person where
  name : String
  degree : Option String := none
  level : Option String := none
  co_advisor : Option String := none
  start : Option String := none
  end_ : Option String := none
  first_employment : Option String := none
  email : Option String := none
  scholar : Option String := none
  github : Option String := none
  website : Option String := none
  img : Option String := none
  deriving DecidableEq

/-! ## makeIcon, lines 8-23 -/

/-- The `link` of `makeIcon`, line 10. -/
def iconLink (label href : String) : String :=
  if label == "Email" && !(isMailto href) then "mailto:" ++ href else href

/-- `makeIcon(href, label, glyph)`: `none` is the source's `null`.  The guard
`!href || href === "#"` holds for an absent value, for `""` and for `"#"`. -/
def makeIcon (href : Option String) (label glyph : String) : Option Node :=
  match href with
  | none => none
  | some h =>
    if h == "" || h == "#" then none
    else
      let link := iconLink label h
      let a := createElement "a"
      let a := setAttribute a "class" "icon-btn"
      let a := setAttribute a "aria-label" label
      let a := setTextContent a glyph
      let a := setAttribute a "href" link
      let a :=
        if isHttpLink link then
          setAttribute (setAttribute a "target" "_blank") "rel" "noopener noreferrer"
        else a
      some a

/-- The four icons of a person, lines 62-67: the array handed to `forEach`. -/
def iconSlots (person : Person) : List (Option Node) :=
  [ makeIcon person.email "Email" "✉︎",
    makeIcon person.scholar "Google Scholar" "🎓",
    makeIcon person.github "GitHub" "🐙",
    makeIcon person.website "Homepage" "🏠" ]

/-- The icon row, lines 59-67: `el && links.appendChild(el)` for each slot. -/
def personLinks (person : Person) : Node :=
  let links := createElement "div"
  let links := setAttribute links "class" "person-links"
  let links := setAttribute links "aria-label" ("Links for " ++ person.name)
  (iconSlots person).foldl
    (fun acc el => match el with | some n => appendChild acc n | none => acc) links

/-! ## renderGrid, lines 34-90 -/

/-- The card built for one person: the body of the `forEach` callback of
`renderGrid`, lines 41-87. -/
def card (person : Person) : Node :=
  let card := createElement "article"
  let card := setAttribute card "class" "person-card"
  let img := createElement "img"
  let img := setAttribute img "class" "avatar"
  let img := setAttribute img "src" (orElse person.img "images/people/placeholder.jpg")
  let img := setAttribute img "alt" ("Portrait of " ++ person.name)
  let img := setAttribute img "loading" "lazy"
  let img := setAttribute img "decoding" "async"
  let h3 := createElement "h3"
  let h3 := setAttribute h3 "class" "person-name"
  let nameLink := createElement "a"
  let nameLink := setAttribute nameLink "href"
    (if truthy person.website && person.website != some "#" then person.website.getD ""
     else "#")
  let nameLink := setTextContent nameLink person.name
  let h3 := appendChild h3 nameLink
  let links := personLinks person
  let card := appendChild (appendChild (appendChild card img) h3) links
  let card :=
    if truthy person.co_advisor then
      let p := createElement "p"
      let p := setAttribute p "class" "person-meta"
      let p := setTextContent p ("Co-advised with " ++ person.co_advisor.getD "")
      appendChild card p
    else card
  let period := formatPeriod person.start person.end_
  let card :=
    if period != "" then
      let p := createElement "p"
      let p := setAttribute p "class" "person-meta"
      let p := setTextContent p period
      appendChild card p
    else card
  card

/-- `renderGrid(gridId, items)`. -/
def renderGrid (gridId : String) (items : List Person) (doc : Document) : Document :=
  match getElementById doc gridId with
  | none => doc
  | some _ =>
    let doc := setChildren doc gridId []
    items.foldl (fun d person => appendToContainer d gridId (card person)) doc

/-! ## Alumni, lines 92-129 -/

/-- `alumniLine(a)`. -/
def alumniLine (a : Person) : String :=
  let period := formatPeriod a.start a.end_
  let bits : List String := []
  let head := a.name
  let head := if truthy a.degree then head ++ " (" ++ a.degree.getD "" ++ ")" else head
  let head := head ++ (":" ++ (if period != "" then " " ++ period else ""))
  let bits := if truthy a.co_advisor then bits ++ ["Co-advisor: " ++ a.co_advisor.getD ""]
    else bits
  let bits :=
    if truthy a.first_employment then
      bits ++ ["First Employment: " ++ a.first_employment.getD ""]
    else bits
  if bits.length != 0 then head ++ ", " ++ join ", " bits else head

/-- The list entry built for one alumnus, lines 113-115. -/
def alumniItem (a : Person) : Node :=
  let li := createElement "li"
  let li := setAttribute li "class" "alumni-item"
  setTextContent li (alumniLine a)

/-- `renderAlumniList(listId, items)`. -/
def renderAlumniList (listId : String) (items : List Person) (doc : Document) : Document :=
  match getElementById doc listId with
  | none => doc
  | some _ =>
    let doc := setChildren doc listId []
    items.foldl (fun d a => appendToContainer d listId (alumniItem a)) doc

/-- The object `{ phd: [], ms: [], ug: [] }` of `bucketAlumni`. -/
structure Groups where
  phd : List Person
  ms : List Person
  ug : List Person
  deriving DecidableEq

/-- One step of the `forEach` of `bucketAlumni`, lines 123-126. -/
def bucketStep (groups : Groups) (a : Person) : Groups :=
  let lvl := toLowerCase (orElse a.level "")
  if lvl == "phd" || lvl == "ph.d." || lvl == "ph.d" then
    { groups with phd := groups.phd ++ [a] }
  else if lvl == "ms" || lvl == "m.s." || lvl == "m.s" || lvl == "masters" then
    { groups with ms := groups.ms ++ [a] }
  else if lvl == "ug" || lvl == "undergrad" || lvl == "undergraduate" then
    { groups with ug := groups.ug ++ [a] }
  else groups

/-- `bucketAlumni(items)`. -/
def bucketAlumni (items : List Person) : Groups :=
  items.foldl bucketStep { phd := [], ms := [], ug := [] }

/-! ## Fetch and render, lines 131-162 -/

/-- The parsed `students.json`: each of the four sequences may be missing. -/
structure Dataset where
  phd_students : Option (List Person) := none
  ms_students : Option (List Person) := none
  ug_students : Option (List Person) := none
  alumni : Option (List Person) := none

/-- What `fetch` resolves with: the `ok` flag, the status, and the outcome of
`res.json()`, which is the parsed document (`none` for the JSON value `null`)
or a parse error. -/
structure Response where
  ok : Bool
  status : Nat
  json : Except String (Option Dataset)

/-- `(data && data.f) || []`, lines 138-141. -/
def sequenceOf (data : Option Dataset) (f : Dataset → Option (List Person)) : List Person :=
  match data with
  | none => []
  | some d =>
    match f d with
    | none => []
    | some items => items

/-- First `then` handler, lines 133-136. -/
def onResponse (res : Response) : Except String (Option Dataset) :=
  if !res.ok then .error ("HTTP " ++ toString res.status) else res.json

/-- Second `then` handler, lines 137-151. -/
def onData (data : Option Dataset) (doc : Document) : Except String Document :=
  let phd := sequenceOf data (fun d => d.phd_students)
  let ms := sequenceOf data (fun d => d.ms_students)
  let ug := sequenceOf data (fun d => d.ug_students)
  let alumni := sequenceOf data (fun d => d.alumni)
  let doc := renderGrid "phd-grid" phd doc
  let doc := renderGrid "ms-grid" ms doc
  let doc := renderGrid "ug-grid" ug doc
  let buckets := bucketAlumni alumni
  let doc := renderAlumniList "alumni-phd-list" buckets.phd doc
  let doc := renderAlumniList "alumni-ms-list" buckets.ms doc
  let doc := renderAlumniList "alumni-ug-list" buckets.ug doc
  .ok doc

/-- Nodes the markup
`<p class="muted">Could not load data. Check <code>students.json</code>.</p>`
parses to (line 156). -/
def gridPlaceholder : List Node :=
  [ .element "p" [("class", "muted")]
      [ .text "Could not load data. Check ",
        .element "code" [] [.text "students.json"],
        .text "." ] ]

/-- Nodes the markup
`<li class="muted">Could not load alumni. Check <code>students.json</code>.</li>`
parses to (line 160). -/
def alumniPlaceholder : List Node :=
  [ .element "li" [("class", "muted")]
      [ .text "Could not load alumni. Check ",
        .element "code" [] [.text "students.json"],
        .text "." ] ]

/-- One step of the loops of the `catch` handler: `if (el) el.innerHTML = ...`. -/
def setPlaceholder (kids : List Node) (doc : Document) (id : String) : Document :=
  match getElementById doc id with
  | none => doc
  | some _ => setChildren doc id kids

/-- The `catch` handler, lines 152-162.  `console.error` does not touch the
document. -/
def onError (_err : String) (doc : Document) : Document :=
  let doc := ["phd-grid", "ms-grid", "ug-grid"].foldl (setPlaceholder gridPlaceholder) doc
  ["alumni-phd-list", "alumni-ms-list", "alumni-ug-list"].foldl
    (setPlaceholder alumniPlaceholder) doc

/-- The promise chain `fetch(...).then(...).then(...).catch(...)` run on a
document: `fetched` is what the fetch settles with (`.error` is a rejected
fetch).  The result is how the chain settles: `.ok` with the final document,
or `.error` when an error is left unhandled. -/
def run (fetched : Except String Response) (doc : Document) : Except String Document :=
  match (fetched >>= onResponse) >>= (fun data => onData data doc) with
  | .ok doc => .ok doc
  | .error err => .ok (onError err doc)

/-! ## Vocabulary of the specification -/

/-- Synonyms of the Ph.D. level. -/
def phdSynonyms : List String := ["phd", "ph.d.", "ph.d"]

/-- Synonyms of the M.S. level. -/
def msSynonyms : List String := ["ms", "m.s.", "m.s", "masters"]

/-- Synonyms of the undergraduate level. -/
def ugSynonyms : List String := ["ug", "undergrad", "undergraduate"]

/-- The level of a record, lower-cased; an absent level counts as `""`. -/
def levelKey (a : Person) : String := toLowerCase (a.level.getD "")

/-- The text a field contributes: `f v` when the field is present, that is
holds a non-empty string `v`, and nothing otherwise. -/
def whenPresent (x : Option String) (f : String → String) : String :=
  match x with
  | some v => if v = "" then "" else f v
  | none => ""

/-- The entries a field contributes to a list: `[f v]` when the field holds a
non-empty string `v`, none otherwise. -/
def listWhenPresent {α : Type} (x : Option String) (f : String → α) : List α :=
  match x with
  | some v => if v = "" then [] else [f v]
  | none => []

/-- A field is absent: it is missing from the record, or holds `""`. -/
def isAbsent (x : Option String) : Prop := x = none ∨ x = some ""

/-- Records used to evaluate the functions on concrete inputs. -/
def alumnaLee : Person :=
  { name := "A. Lee", degree := some "Ph.D.", level := some "PhD", start := some "2015",
    end_ := some "2020", co_advisor := some "B. Kim", first_employment := some "Acme" }

/-- An alumnus whose level is in no synonym table. -/
def alumnusPostdoc : Person := { name := "P. Doc", level := some "postdoc" }

/-- An alumnus with a master's level, written with capitals. -/
def alumnusMs : Person := { name := "M. Roe", level := some "M.S.", degree := some "M.S." }

/-- A record with a name and a level only. -/
def alumnusBare : Person := { name := "N. Poe", level := some "ug" }

/-- What an icon shows to the reader of the page: its accessible label and
its link. -/
def iconDescriptor (n : Node) : Option String × Option String :=
  (getAttribute n "aria-label", getAttribute n "href")

/-- The icon a channel contributes: one icon with the channel's label and the
link `link v` when the source value `v` is present (a non-empty string) and is
not the sentinel `"#"`, no icon otherwise. -/
def channelIcon (label : String) (x : Option String) (link : String → String) :
    List (Option String × Option String) :=
  match x with
  | some v => if v = "" ∨ v = "#" then [] else [(some label, some (link v))]
  | none => []

/-- Link of an e-mail value when "prefixed with `mailto:`" is taken character
for character. -/
def mailtoLinkExact (v : String) : String :=
  if "mailto:".data <+: v.data then v else "mailto:" ++ v

/-- Link of an e-mail value when "prefixed with `mailto:`" ignores the case of
the letters. -/
def mailtoLinkAnyCase (v : String) : String :=
  if startsWithIgnoreCase "mailto:" v then v else "mailto:" ++ v

/-- The icon row in the specification's words: Email, Google Scholar, GitHub,
Homepage, in this order, each when its source value is present and not `"#"`;
`emailLink` is the rule for the link of the e-mail icon. -/
def expectedIcons (emailLink : String → String) (p : Person) :
    List (Option String × Option String) :=
  channelIcon "Email" p.email emailLink ++
  channelIcon "Google Scholar" p.scholar (fun v => v) ++
  channelIcon "GitHub" p.github (fun v => v) ++
  channelIcon "Homepage" p.website (fun v => v)

/-- The icon row as the specification states it, with the `mailto:` prefix
compared character for character. -/
def IconRowAsStated (p : Person) : Prop :=
  (childNodes (personLinks p)).map iconDescriptor = expectedIcons mailtoLinkExact p

/-- The words of a space-separated attribute value such as `rel`. -/
def tokens (s : String) : List String := (s.data.splitOn ' ').map String.mk

/-- A character allowed after the first letter of a scheme name. -/
def isSchemeChar (c : Char) : Bool :=
  c.isAlpha || c.isDigit || c == '+' || c == '-' || c == '.'

/-- The scheme of a link as a URL parser reads it (RFC 3986, section 3.1): the
text before the first colon, when it is a letter followed by letters, digits,
`+`, `-` or `.`, in lower case since scheme names ignore letter case; `none`
when the link starts with no scheme. -/
def urlScheme (link : String) : Option String :=
  let pre := link.data.takeWhile (fun c => c != ':')
  match pre with
  | [] => none
  | c :: rest =>
    if pre.length < link.data.length && c.isAlpha && rest.all isSchemeChar then
      some ⟨pre.map Char.toLower⟩
    else none

/-- The link has scheme http or https. -/
abbrev hasHttpScheme (link : String) : Prop :=
  urlScheme link = some "http" ∨ urlScheme link = some "https"

/-- The icon opens in a new browsing context: `target` is `_blank` and the
words of `rel` include `noopener` and `noreferrer`. -/
def opensInNewContext (icon : Node) : Prop :=
  getAttribute icon "target" = some "_blank" ∧
  ∃ rel, getAttribute icon "rel" = some rel ∧
    "noopener" ∈ tokens rel ∧ "noreferrer" ∈ tokens rel

/-- The new-context rule as the specification states it, for one call of
`makeIcon`: an icon whose link has scheme http or https opens in a new
context. -/
def NewContextAsStated (href : Option String) (label glyph : String) : Prop :=
  ∀ icon link, makeIcon href label glyph = some icon →
    getAttribute icon "href" = some link → hasHttpScheme link → opensInNewContext icon

/-- The text `s` begins with the lower-case text `pat`, written in any letter
case. -/
abbrev beginsWithAnyCase (pat s : String) : Prop :=
  (s.data.take pat.length).map Char.toLower = pat.data

/-- A person whose e-mail value carries the scheme in capitals. -/
def personCapitalMailto : Person := { name := "C. Case", email := some "MAILTO:x@y.com" }

/-- A person with an e-mail address and no other channel. -/
def personEmailOnly : Person := { name := "E. Mail", email := some "x@y.com" }

/-- A person whose homepage is the sentinel. -/
def personNoHomepage : Person :=
  { name := "H. Page", github := some "https://github.com/hp", website := some "#" }

/-- A meta line of a card: a paragraph of class `person-meta` with one text. -/
def metaLine (t : String) : Node := .element "p" [("class", "person-meta")] [.text t]

/-- Source of the portrait: the `img` field when present, the placeholder
path otherwise. -/
def portraitSource (p : Person) : String :=
  match p.img with
  | some v => if v = "" then "images/people/placeholder.jpg" else v
  | none => "images/people/placeholder.jpg"

/-- Target of the name link: the `website` field when present and not `"#"`,
and `"#"` otherwise. -/
def nameTarget (p : Person) : String :=
  match p.website with
  | some v => if v = "" ∨ v = "#" then "#" else v
  | none => "#"

/-- A current student with every card field set. -/
def studentFull : Person :=
  { name := "S. Ray", co_advisor := some "B. Kim", start := some "2021",
    email := some "s@ray.org", website := some "https://ray.org", img := some "images/ray.jpg" }

/-- The list entry of an alumnus in the specification's words: an item of
class `alumni-item` whose text is the alumni line. -/
def alumniEntry (a : Person) : Node :=
  .element "li" [("class", "alumni-item")] [.text (alumniLine a)]

/-- A sequence of the dataset, a missing document or sequence counting as
empty. -/
def sequenceOrEmpty (data : Option Dataset) (f : Dataset → Option (List Person)) :
    List Person :=
  (data.bind f).getD []

/-- A host page with the six containers, each holding `kids`. -/
def hostPage (kids : List Node) : Document :=
  fun id =>
    if id ∈ ["phd-grid", "ms-grid", "ug-grid", "alumni-phd-list", "alumni-ms-list",
      "alumni-ug-list"] then some kids
    else none

/-- A dataset with one Ph.D. student and one alumnus of level `"M.S."`. -/
def smallDataset : Dataset :=
  { phd_students := some [studentFull], alumni := some [alumnusMs] }

/-- A response with status 200 carrying `smallDataset`. -/
def okResponse : Response := { ok := true, status := 200, json := .ok (some smallDataset) }

/-- A response with status 404. -/
def notFoundResponse : Response := { ok := false, status := 404, json := .error "no body" }

/-- A response with status 200 whose body does not parse. -/
def garbledResponse : Response :=
  { ok := true, status := 200, json := .error "Unexpected token" }

/-- The three card grids of the host page. -/
def gridIds : List String := ["phd-grid", "ms-grid", "ug-grid"]

/-- The three alumni lists of the host page. -/
def alumniListIds : List String := ["alumni-phd-list", "alumni-ms-list", "alumni-ug-list"]

/-! ## Lemmas on trimming -/

theorem trimChars_idem (l : List Char) : trimChars (trimChars l) = trimChars l := by
  unfold trimChars
  have h1 : List.dropWhile isTrimChar
      ((l.dropWhile isTrimChar).rdropWhile isTrimChar)
      = (l.dropWhile isTrimChar).rdropWhile isTrimChar := by
    obtain ⟨t, ht⟩ := List.rdropWhile_prefix isTrimChar (l := l.dropWhile isTrimChar)
    cases hr : (l.dropWhile isTrimChar).rdropWhile isTrimChar with
    | nil => rfl
    | cons a r =>
      rw [hr] at ht
      have hne : l.dropWhile isTrimChar ≠ [] := by rw [← ht]; simp
      have hnot := List.head_dropWhile_not isTrimChar l hne
      have hhead : (l.dropWhile isTrimChar).head hne = a := by
        simp [← ht]
      rw [hhead] at hnot
      simp [List.dropWhile_cons, hnot]
  rw [h1, List.rdropWhile_idempotent]

theorem trimChars_surrounding (l : List Char) :
    ∃ pre post : List Char, l = pre ++ trimChars l ++ post ∧
      (∀ c ∈ pre, isTrimChar c = true) ∧ (∀ c ∈ post, isTrimChar c = true) ∧
      (∀ c, (trimChars l).head? = some c → isTrimChar c = false) ∧
      (∀ c, (trimChars l).getLast? = some c → isTrimChar c = false) := by
  have hsplit : ∀ m : List Char,
      m = m.rdropWhile isTrimChar ++ m.rtakeWhile isTrimChar := by
    intro m
    have h := List.takeWhile_append_dropWhile isTrimChar m.reverse
    have h2 := congrArg List.reverse h
    simp only [List.reverse_append, List.reverse_reverse] at h2
    exact h2.symm
  refine ⟨l.takeWhile isTrimChar, (l.dropWhile isTrimChar).rtakeWhile isTrimChar,
    ?_, ?_, ?_, ?_, ?_⟩
  · unfold trimChars
    rw [List.append_assoc, ← hsplit, List.takeWhile_append_dropWhile]
  · intro c hc
    exact List.mem_takeWhile_imp hc
  · intro c hc
    exact List.mem_rtakeWhile_imp hc
  · intro c hc
    have hidem := trimChars_idem l
    unfold trimChars at hidem hc
    have hd : List.dropWhile isTrimChar
        ((l.dropWhile isTrimChar).rdropWhile isTrimChar)
        = (l.dropWhile isTrimChar).rdropWhile isTrimChar := by
      have hpre := List.rdropWhile_prefix isTrimChar
        (l := List.dropWhile isTrimChar ((l.dropWhile isTrimChar).rdropWhile isTrimChar))
      rw [hidem] at hpre
      have hsuf := List.dropWhile_suffix isTrimChar
        (l := (l.dropWhile isTrimChar).rdropWhile isTrimChar)
      exact List.IsSuffix.eq_of_length_le hsuf hpre.length_le
    have hne : (l.dropWhile isTrimChar).rdropWhile isTrimChar ≠ [] := by
      intro h; rw [h] at hc; cases hc
    have hnot := List.head_dropWhile_not isTrimChar
      ((l.dropWhile isTrimChar).rdropWhile isTrimChar) (by rw [hd]; exact hne)
    have hhead : (List.dropWhile isTrimChar
        ((l.dropWhile isTrimChar).rdropWhile isTrimChar)).head (by rw [hd]; exact hne) = c := by
      have : ((l.dropWhile isTrimChar).rdropWhile isTrimChar).head hne = c := by
        rw [List.head?_eq_head hne] at hc
        exact Option.some.inj hc
      simp only [hd]
      exact this
    rw [hhead] at hnot
    exact hnot
  · intro c hc
    unfold trimChars at hc
    have hne : (l.dropWhile isTrimChar).rdropWhile isTrimChar ≠ [] := by
      intro h; rw [h] at hc; cases hc
    have hnot := List.rdropWhile_last_not isTrimChar (l.dropWhile isTrimChar) hne
    rw [List.getLast?_eq_getLast _ hne] at hc
    rw [Option.some.inj hc] at hnot
    simpa using hnot

theorem startsWithIgnoreCase_iff (pat s : String) :
    startsWithIgnoreCase pat s = true ↔
      ∃ pre rest : List Char, s.data = pre ++ rest ∧
        pre.map Char.toUpper = pat.data.map Char.toUpper := by
  unfold startsWithIgnoreCase canonicalize
  rw [List.isPrefixOf_iff_prefix, List.isPrefix_map_iff]
  constructor
  · rintro ⟨pre, ⟨rest, hrest⟩, hpre⟩
    exact ⟨pre, rest, hrest.symm, hpre.symm⟩
  · rintro ⟨pre, rest, hs, hpre⟩
    exact ⟨pre, ⟨rest, hs.symm⟩, hpre.symm⟩

theorem trim_idem (s : String) : trim (trim s) = trim s := by
  simp [trim, trimChars_idem]

theorem orElse_some_trim (x : Option String) :
    trim (orElse (some (trim (orElse x ""))) "") = trim (orElse x "") := by
  generalize orElse x "" = v
  by_cases h : trim v = ""
  · rw [h]; rfl
  · have : orElse (some (trim v)) "" = trim v := by
      simp [orElse, h]
    rw [this, trim_idem]

theorem orElse_empty (x : Option String) : orElse x "" = x.getD "" := by
  cases x with
  | none => rfl
  | some v =>
    by_cases h : v = ""
    · subst h; rfl
    · simp [orElse, h]

/-! ## bucketAlumni as three filters -/

theorem synonyms_disjoint (k : String) :
    ¬ (k ∈ phdSynonyms ∧ k ∈ msSynonyms) ∧ ¬ (k ∈ phdSynonyms ∧ k ∈ ugSynonyms) ∧
      ¬ (k ∈ msSynonyms ∧ k ∈ ugSynonyms) := by
  refine ⟨?_, ?_, ?_⟩
  · rintro ⟨h1, h2⟩
    simp only [phdSynonyms, List.mem_cons, List.mem_singleton, List.not_mem_nil,
      or_false] at h1
    rcases h1 with h | h | h <;> subst h <;> revert h2 <;> decide
  · rintro ⟨h1, h2⟩
    simp only [phdSynonyms, List.mem_cons, List.mem_singleton, List.not_mem_nil,
      or_false] at h1
    rcases h1 with h | h | h <;> subst h <;> revert h2 <;> decide
  · rintro ⟨h1, h2⟩
    simp only [msSynonyms, List.mem_cons, List.mem_singleton, List.not_mem_nil,
      or_false] at h1
    rcases h1 with h | h | h | h <;> subst h <;> revert h2 <;> decide

theorem bucketStep_eq (g : Groups) (a : Person) :
    bucketStep g a =
      { phd := g.phd ++ (if levelKey a ∈ phdSynonyms then [a] else []),
        ms := g.ms ++ (if levelKey a ∈ msSynonyms then [a] else []),
        ug := g.ug ++ (if levelKey a ∈ ugSynonyms then [a] else []) } := by
  have hk : toLowerCase (orElse a.level "") = levelKey a := by
    simp [levelKey, orElse_empty]
  simp only [bucketStep, hk]
  generalize levelKey a = k
  have c1 : (k == "phd" || k == "ph.d." || k == "ph.d") = decide (k ∈ phdSynonyms) := by
    rw [Bool.eq_iff_iff]; simp [phdSynonyms, or_assoc]
  have c2 : (k == "ms" || k == "m.s." || k == "m.s" || k == "masters")
      = decide (k ∈ msSynonyms) := by
    rw [Bool.eq_iff_iff]; simp [msSynonyms, or_assoc]
  have c3 : (k == "ug" || k == "undergrad" || k == "undergraduate")
      = decide (k ∈ ugSynonyms) := by
    rw [Bool.eq_iff_iff]; simp [ugSynonyms, or_assoc]
  rw [c1, c2, c3]
  obtain ⟨d1, d2, d3⟩ := synonyms_disjoint k
  by_cases h1 : k ∈ phdSynonyms
  · have h2 : k ∉ msSynonyms := fun h => d1 ⟨h1, h⟩
    have h3 : k ∉ ugSynonyms := fun h => d2 ⟨h1, h⟩
    simp [h1, h2, h3]
  · by_cases h2 : k ∈ msSynonyms
    · have h3 : k ∉ ugSynonyms := fun h => d3 ⟨h2, h⟩
      simp [h1, h2, h3]
    · by_cases h3 : k ∈ ugSynonyms <;> simp [h1, h2, h3]

theorem foldl_bucketStep (items : List Person) (g : Groups) :
    items.foldl bucketStep g =
      { phd := g.phd ++ items.filter (fun r => decide (levelKey r ∈ phdSynonyms)),
        ms := g.ms ++ items.filter (fun r => decide (levelKey r ∈ msSynonyms)),
        ug := g.ug ++ items.filter (fun r => decide (levelKey r ∈ ugSynonyms)) } := by
  induction items generalizing g with
  | nil => simp
  | cons a rest ih =>
    rw [List.foldl_cons, ih, bucketStep_eq]
    simp only [List.append_assoc, List.filter_cons, decide_eq_true_eq]
    congr 1 <;> congr 1 <;> split <;> simp

theorem bucketAlumni_eq_filters (items : List Person) :
    bucketAlumni items =
      { phd := items.filter (fun r => decide (levelKey r ∈ phdSynonyms)),
        ms := items.filter (fun r => decide (levelKey r ∈ msSynonyms)),
        ug := items.filter (fun r => decide (levelKey r ∈ ugSynonyms)) } := by
  simp [bucketAlumni, foldl_bucketStep]

/-! ## The shape of an icon -/

theorem makeIcon_present (h label glyph : String) (h1 : h ≠ "") (h2 : h ≠ "#") :
    makeIcon (some h) label glyph =
      some (.element "a"
        ([("class", "icon-btn"), ("aria-label", label), ("href", iconLink label h)] ++
          (if isHttpLink (iconLink label h) then
            [("target", "_blank"), ("rel", "noopener noreferrer")] else []))
        (if glyph = "" then [] else [.text glyph])) := by
  simp only [makeIcon, beq_iff_eq, h1, h2, Bool.or_self, Bool.false_eq_true, if_false,
    createElement, setAttribute, setTextContent]
  by_cases hh : isHttpLink (iconLink label h) = true <;>
    by_cases hg : glyph = "" <;>
    simp [hh, hg, h1, h2, setAttribute, replaceAttr]

theorem makeIcon_descriptor (x : Option String) (label glyph : String) :
    (makeIcon x label glyph).toList.map iconDescriptor =
      channelIcon label x (iconLink label) := by
  cases x with
  | none => simp [makeIcon, channelIcon]
  | some v =>
    by_cases h1 : v = ""
    · subst h1; simp [makeIcon, channelIcon]
    · by_cases h2 : v = "#"
      · subst h2; simp [makeIcon, channelIcon]
      · rw [makeIcon_present v label glyph h1 h2]
        simp [channelIcon, h1, h2, iconDescriptor, getAttribute]

theorem foldl_appendChild (slots : List (Option Node)) (tag : String)
    (attrs : List (String × String)) (kids : List Node) :
    slots.foldl (fun acc el => match el with | some n => appendChild acc n | none => acc)
        (.element tag attrs kids)
      = .element tag attrs (kids ++ slots.flatMap Option.toList) := by
  induction slots generalizing kids with
  | nil => simp
  | cons el rest ih =>
    cases el with
    | none => simp [ih]
    | some n =>
      rw [List.foldl_cons]
      show List.foldl _ (Node.element tag attrs (kids ++ [n])) rest = _
      rw [ih]
      simp

theorem personLinks_eq (p : Person) :
    personLinks p =
      .element "div" [("class", "person-links"), ("aria-label", "Links for " ++ p.name)]
        ((iconSlots p).flatMap Option.toList) := by
  simp [personLinks, createElement, setAttribute, foldl_appendChild]

theorem toUpper_toLower (c : Char) : c.toLower.toUpper = c.toUpper := by
  by_cases h : 65 ≤ c.toNat ∧ c.toNat ≤ 90
  · have hc : c = Char.ofNat c.toNat := (Char.ofNat_toNat c).symm
    obtain ⟨h1, h2⟩ := h
    generalize c.toNat = n at hc h1 h2
    subst hc
    interval_cases n <;> rfl
  · have hl : c.toLower = c := by
      simp only [Char.toLower]
      rw [if_neg]
      simpa using h
    rw [hl]

theorem startsWithIgnoreCase_of_begins (pat s : String) (h : beginsWithAnyCase pat s) :
    startsWithIgnoreCase pat s = true := by
  rw [startsWithIgnoreCase_iff]
  refine ⟨s.data.take pat.length, s.data.drop pat.length,
    (List.take_append_drop _ _).symm, ?_⟩
  have h2 := congrArg (List.map Char.toUpper) h
  rw [List.map_map] at h2
  rw [← h2]
  apply List.map_congr_left
  intro c _
  exact (toUpper_toLower c).symm

/-! ## The shape of a card -/

theorem card_eq (p : Person) :
    card p =
      .element "article" [("class", "person-card")]
        ([ .element "img"
            [("class", "avatar"), ("src", portraitSource p),
             ("alt", "Portrait of " ++ p.name), ("loading", "lazy"), ("decoding", "async")] [],
           .element "h3" [("class", "person-name")]
            [.element "a" [("href", nameTarget p)]
              (if p.name = "" then [] else [.text p.name])],
           personLinks p ] ++
          listWhenPresent p.co_advisor (fun c => metaLine ("Co-advised with " ++ c)) ++
          (if formatPeriod p.start p.end_ = "" then []
           else [metaLine (formatPeriod p.start p.end_)])) := by
  have hsrc : orElse p.img "images/people/placeholder.jpg" = portraitSource p := by
    unfold orElse portraitSource
    cases p.img with
    | none => rfl
    | some v => by_cases h : v = "" <;> simp [h]
  have hhref : (if (truthy p.website && p.website != some "#") = true then p.website.getD ""
      else "#") = nameTarget p := by
    unfold nameTarget truthy
    cases p.website with
    | none => rfl
    | some v => by_cases h1 : v = "" <;> by_cases h2 : v = "#" <;> simp [h1, h2]
  have hco : ∀ c : String, ("Co-advised with " ++ c == "") = false := by
    intro c
    rw [beq_eq_false_iff_ne]
    intro h
    have := congrArg String.length h
    simp only [String.length_append] at this
    have h16 : "Co-advised with ".length = 16 := by decide
    have h0 : "".length = 0 := by decide
    omega
  unfold card
  simp only [hsrc, hhref]
  generalize formatPeriod p.start p.end_ = period
  generalize personLinks p = links
  generalize portraitSource p = src
  generalize nameTarget p = target
  rcases p with ⟨name, degree, level, co, start, end_, fe, email, scholar, github, website, img⟩
  simp only
  by_cases hp : period = "" <;> by_cases hn : name = "" <;> rcases co with _ | c <;>
    (try by_cases hc : c = "") <;>
    simp [createElement, setAttribute, replaceAttr, setTextContent, appendChild, truthy,
      listWhenPresent, metaLine, hco, *]

/-! ## Rendering into a container -/

theorem foldl_appendToContainer (f : Person → Node) (id : String) (items : List Person)
    (doc : Document) :
    items.foldl (fun d a => appendToContainer d id (f a)) doc =
      fun i => if i = id then (doc i).map (fun kids => kids ++ items.map f) else doc i := by
  induction items generalizing doc with
  | nil =>
    funext i
    by_cases h : i = id <;> simp [h]
  | cons a rest ih =>
    rw [List.foldl_cons, ih]
    funext i
    by_cases h : i = id
    · simp only [h, if_true, appendToContainer]
      cases doc id <;> simp
    · simp [h, appendToContainer]

theorem renderGrid_eq (id : String) (items : List Person) (doc : Document) :
    renderGrid id items doc = setChildren doc id (items.map card) := by
  unfold renderGrid getElementById
  cases h : doc id with
  | none =>
    funext i
    by_cases hi : i = id
    · subst hi; simp [setChildren, h]
    · simp [setChildren, hi]
  | some kids =>
    simp only [foldl_appendToContainer]
    funext i
    by_cases hi : i = id
    · subst hi; simp [setChildren, h]
    · simp [setChildren, hi]

theorem alumniLine_ne_empty (a : Person) : alumniLine a ≠ "" := by
  intro h
  have h2 : ':' ∈ (alumniLine a).data := by
    unfold alumniLine
    simp only []
    split_ifs <;> simp [String.data_append]
  rw [h] at h2
  simp at h2

theorem alumniItem_eq (a : Person) : alumniItem a = alumniEntry a := by
  simp [alumniItem, alumniEntry, createElement, setAttribute, setTextContent,
    alumniLine_ne_empty]

theorem renderAlumniList_eq (id : String) (items : List Person) (doc : Document) :
    renderAlumniList id items doc = setChildren doc id (items.map alumniEntry) := by
  unfold renderAlumniList getElementById
  have hmap : items.map alumniItem = items.map alumniEntry := by
    simp [alumniItem_eq]
  cases h : doc id with
  | none =>
    funext i
    by_cases hi : i = id
    · subst hi; simp [setChildren, h]
    · simp [setChildren, hi]
  | some kids =>
    simp only [foldl_appendToContainer, hmap]
    funext i
    by_cases hi : i = id
    · subst hi; simp [setChildren, h]
    · simp [setChildren, hi]

theorem setChildren_same (doc : Document) (id : String) (kids : List Node) :
    setChildren doc id kids id = (doc id).map (fun _ => kids) := by
  simp [setChildren]

theorem setChildren_other (doc : Document) (id j : String) (kids : List Node) (h : j ≠ id) :
    setChildren doc id kids j = doc j := by
  simp [setChildren, h]

theorem setChildren_idem (doc : Document) (id : String) (kids : List Node) :
    setChildren (setChildren doc id kids) id kids = setChildren doc id kids := by
  funext i
  by_cases h : i = id
  · subst h
    simp only [setChildren, if_true]
    cases doc i <;> rfl
  · simp [setChildren, h]

theorem sequenceOf_eq (data : Option Dataset) (f : Dataset → Option (List Person)) :
    sequenceOf data f = sequenceOrEmpty data f := by
  unfold sequenceOf sequenceOrEmpty
  cases data with
  | none => rfl
  | some d =>
    simp only [Option.bind]
    cases f d <;> rfl

theorem setChildren_of_isSome (doc : Document) (id : String) (kids : List Node)
    (h : (getElementById doc id).isSome = true) : setChildren doc id kids id = some kids := by
  rw [setChildren_same]
  unfold getElementById at h
  cases hd : doc id with
  | none => rw [hd] at h; simp at h
  | some old => rfl

theorem setPlaceholder_eq (kids : List Node) (doc : Document) (id : String) :
    setPlaceholder kids doc id = setChildren doc id kids := by
  unfold setPlaceholder getElementById
  cases h : doc id with
  | none =>
    funext i
    by_cases hi : i = id
    · subst hi; simp [setChildren, h]
    · simp [setChildren, hi]
  | some old => rfl

theorem onError_eq (err : String) (doc : Document) :
    onError err doc =
      setChildren (setChildren (setChildren (setChildren (setChildren (setChildren doc
        "phd-grid" gridPlaceholder) "ms-grid" gridPlaceholder) "ug-grid" gridPlaceholder)
        "alumni-phd-list" alumniPlaceholder) "alumni-ms-list" alumniPlaceholder)
        "alumni-ug-list" alumniPlaceholder := by
  simp [onError, setPlaceholder_eq]

theorem onData_eq (data : Option Dataset) (doc : Document) :
    onData data doc = .ok
      (setChildren (setChildren (setChildren (setChildren (setChildren (setChildren doc
        "phd-grid" ((sequenceOrEmpty data (fun d => d.phd_students)).map card))
        "ms-grid" ((sequenceOrEmpty data (fun d => d.ms_students)).map card))
        "ug-grid" ((sequenceOrEmpty data (fun d => d.ug_students)).map card))
        "alumni-phd-list"
          ((bucketAlumni (sequenceOrEmpty data (fun d => d.alumni))).phd.map alumniEntry))
        "alumni-ms-list"
          ((bucketAlumni (sequenceOrEmpty data (fun d => d.alumni))).ms.map alumniEntry))
        "alumni-ug-list"
          ((bucketAlumni (sequenceOrEmpty data (fun d => d.alumni))).ug.map alumniEntry)) := by
  simp only [onData, renderGrid_eq, renderAlumniList_eq, sequenceOf_eq]

theorem card_not_placeholder (p : Person) :
    card p ∉ gridPlaceholder ∧ card p ∉ alumniPlaceholder := by
  rw [card_eq]
  simp [gridPlaceholder, alumniPlaceholder]

theorem alumniItem_not_placeholder (p : Person) :
    alumniItem p ∉ gridPlaceholder ∧ alumniItem p ∉ alumniPlaceholder := by
  rw [alumniItem_eq]
  simp [gridPlaceholder, alumniPlaceholder, alumniEntry]

/-! ## formatPeriod -/

/-- C1: with `s` and `e` the trimmed inputs (an absent input counting as
`""`), `formatPeriod` returns `""` when both are empty, `s ++ " - "` when only
`s` is non-empty, `s ++ " - " ++ e` when both are, `"- " ++ e` when only `e`
is; and it returns the same on the trimmed inputs as on the inputs. -/
theorem formatPeriod_cases (start end_ : Option String) (s e : String)
    (hs : s = trim (start.getD "")) (he : e = trim (end_.getD "")) :
    (s = "" → e = "" → formatPeriod start end_ = "") ∧
    (s ≠ "" → e = "" → formatPeriod start end_ = s ++ " - ") ∧
    (s ≠ "" → e ≠ "" → formatPeriod start end_ = s ++ " - " ++ e) ∧
    (s = "" → e ≠ "" → formatPeriod start end_ = "- " ++ e) ∧
    formatPeriod start end_ = formatPeriod (some s) (some e) := by
  have hs' : trim (orElse start "") = s := by rw [orElse_empty, hs]
  have he' : trim (orElse end_ "") = e := by rw [orElse_empty, he]
  have hs2 : trim (orElse (some s) "") = s := by
    rw [← hs', orElse_some_trim]
  have he2 : trim (orElse (some e) "") = e := by
    rw [← he', orElse_some_trim]
  refine ⟨?_, ?_, ?_, ?_, ?_⟩
  · intro h1 h2; simp [formatPeriod, hs', he', h1, h2]
  · intro h1 h2; simp [formatPeriod, hs', he', h1, h2]
  · intro h1 h2; simp [formatPeriod, hs', he', h1, h2]
  · intro h1 h2; simp [formatPeriod, hs', he', h1, h2]
  · simp only [formatPeriod, hs', he', hs2, he2]

/-- C1 at the inputs named by the specification, and at padded inputs. -/
theorem formatPeriod_cases_witness :
    formatPeriod (some "") (some "") = "" ∧
    formatPeriod (some "2019") (some "") = "2019 - " ∧
    formatPeriod (some "2019") (some "2023") = "2019 - 2023" ∧
    formatPeriod (some "") (some "2023") = "- 2023" ∧
    formatPeriod (some "  2019\t") none = formatPeriod (some "2019") (some "") :=
  ⟨(formatPeriod_cases (some "") (some "") "" "" (by decide) (by decide)).1 rfl rfl,
   (formatPeriod_cases (some "2019") (some "") "2019" "" (by decide) (by decide)).2.1
      (by decide) rfl,
   (formatPeriod_cases (some "2019") (some "2023") "2019" "2023" (by decide) (by decide)).2.2.1
      (by decide) (by decide),
   (formatPeriod_cases (some "") (some "2023") "" "2023" (by decide) (by decide)).2.2.2.1
      rfl (by decide),
   (formatPeriod_cases (some "  2019\t") none "2019" "" (by decide) (by decide)).2.2.2.2⟩

/-! ## bucketAlumni -/

/-- C2: the three buckets of `bucketAlumni` are the sub-sequences of the input
(source order, duplicates kept) whose lower-cased level is in the Ph.D., the
M.S. and the undergraduate synonym table respectively; a record whose level
is in no table (an absent level counting as `""`) is in no bucket, and no
record is in two buckets. -/
theorem bucketAlumni_buckets (items : List Person) :
    (bucketAlumni items).phd = items.filter (fun a => decide (levelKey a ∈ phdSynonyms)) ∧
    (bucketAlumni items).ms = items.filter (fun a => decide (levelKey a ∈ msSynonyms)) ∧
    (bucketAlumni items).ug = items.filter (fun a => decide (levelKey a ∈ ugSynonyms)) ∧
    (∀ a : Person, levelKey a ∉ phdSynonyms → levelKey a ∉ msSynonyms →
        levelKey a ∉ ugSynonyms →
        a ∉ (bucketAlumni items).phd ∧ a ∉ (bucketAlumni items).ms ∧
          a ∉ (bucketAlumni items).ug) ∧
    (∀ a : Person,
        ¬ (a ∈ (bucketAlumni items).phd ∧ a ∈ (bucketAlumni items).ms) ∧
        ¬ (a ∈ (bucketAlumni items).phd ∧ a ∈ (bucketAlumni items).ug) ∧
        ¬ (a ∈ (bucketAlumni items).ms ∧ a ∈ (bucketAlumni items).ug)) := by
  rw [bucketAlumni_eq_filters]
  refine ⟨rfl, rfl, rfl, ?_, ?_⟩
  · intro a h1 h2 h3
    simp [List.mem_filter, h1, h2, h3]
  · intro a
    obtain ⟨d1, d2, d3⟩ := synonyms_disjoint (levelKey a)
    simp only [List.mem_filter, decide_eq_true_eq]
    exact ⟨fun h => d1 ⟨h.1.2, h.2.2⟩, fun h => d2 ⟨h.1.2, h.2.2⟩,
      fun h => d3 ⟨h.1.2, h.2.2⟩⟩

/-- C2 on a list holding a Ph.D. record, a postdoc, an M.S. record and a
record without degree information: the postdoc is in no bucket. -/
theorem bucketAlumni_buckets_witness :
    (bucketAlumni [alumnaLee, alumnusPostdoc, alumnusMs, alumnusBare]).phd = [alumnaLee] ∧
    (bucketAlumni [alumnaLee, alumnusPostdoc, alumnusMs, alumnusBare]).ms = [alumnusMs] ∧
    (alumnusPostdoc ∉ (bucketAlumni [alumnaLee, alumnusPostdoc, alumnusMs, alumnusBare]).phd ∧
      alumnusPostdoc ∉ (bucketAlumni [alumnaLee, alumnusPostdoc, alumnusMs, alumnusBare]).ms ∧
      alumnusPostdoc ∉ (bucketAlumni [alumnaLee, alumnusPostdoc, alumnusMs, alumnusBare]).ug) :=
  ⟨(bucketAlumni_buckets _).1.trans (by decide),
   (bucketAlumni_buckets [alumnaLee, alumnusPostdoc, alumnusMs, alumnusBare]).2.1.trans
      (by decide),
   (bucketAlumni_buckets [alumnaLee, alumnusPostdoc, alumnusMs, alumnusBare]).2.2.2.1
      alumnusPostdoc (by decide) (by decide) (by decide)⟩

/-! ## alumniLine -/

/-- C3: `alumniLine` is the head `name ++ " (degree)" ++ ":" ++ " period"`
(the degree part only when a degree is present, the period part only when
`formatPeriod` is non-empty) followed by `", Co-advisor: " ++ co_advisor` when
a co-advisor is present and then `", First Employment: " ++ first_employment`
when a first employment is present. -/
theorem alumniLine_format (a : Person) :
    alumniLine a =
      (a.name ++ whenPresent a.degree (fun d => " (" ++ d ++ ")") ++ ":" ++
        (if formatPeriod a.start a.end_ = "" then ""
         else " " ++ formatPeriod a.start a.end_)) ++
      (whenPresent a.co_advisor (fun c => ", Co-advisor: " ++ c) ++
        whenPresent a.first_employment (fun f => ", First Employment: " ++ f)) := by
  unfold alumniLine
  generalize formatPeriod a.start a.end_ = period
  rcases a with ⟨name, degree, level, co, start, end_, fe, email, scholar, github, website, img⟩
  simp only
  by_cases hp : period = "" <;>
  rcases degree with _ | d <;> rcases co with _ | c <;> rcases fe with _ | f <;>
    simp only [truthy, whenPresent, Option.getD, hp, bne_iff_ne, ne_eq, ite_not,
      not_true_eq_false, not_false_eq_true, if_true, Bool.false_eq_true, if_false,
      List.nil_append, List.length_nil, List.length_cons, List.length_append,
      List.length_singleton] <;>
    (try split_ifs) <;>
    first
      | rfl
      | (exfalso; simp_all; done)
      | (apply String.ext
         simp [join, String.data_append])

/-- C3 on the record of the specification. -/
theorem alumniLine_format_witness :
    alumniLine alumnaLee =
      "A. Lee (Ph.D.): 2015 - 2020, Co-advisor: B. Kim, First Employment: Acme" :=
  (alumniLine_format alumnaLee).trans (by decide)

/-- C4: for a record without degree, start, end, co-advisor and first
employment, `alumniLine` is exactly `name ++ ":"`; its last character is the
colon, so there is no trailing comma and no trailing space. -/
theorem alumniLine_name_only (a : Person) (hd : isAbsent a.degree) (hs : isAbsent a.start)
    (he : isAbsent a.end_) (hc : isAbsent a.co_advisor)
    (hf : isAbsent a.first_employment) :
    alumniLine a = a.name ++ ":" ∧ (alumniLine a).data.getLast? = some ':' := by
  have hp : formatPeriod a.start a.end_ = "" := by
    rcases hs with h | h <;> rcases he with h' | h' <;> rw [h, h'] <;> decide
  have hline : alumniLine a = a.name ++ ":" := by
    unfold alumniLine
    rw [hp]
    rcases hd with h | h <;> rcases hc with h' | h' <;> rcases hf with h'' | h'' <;>
      rw [h, h', h''] <;> apply String.ext <;> simp [truthy, String.data_append]
  refine ⟨hline, ?_⟩
  rw [hline]
  simp [String.data_append]

/-- C4 on a record with a name and a level only. -/
theorem alumniLine_name_only_witness :
    alumniLine alumnusBare = "N. Poe:" ∧ (alumniLine alumnusBare).data.getLast? = some ':' :=
  alumniLine_name_only alumnusBare (Or.inl rfl) (Or.inl rfl) (Or.inl rfl) (Or.inl rfl)
    (Or.inl rfl)

/-! ## Icons -/

/-- C5 as stated fails: for the e-mail value `"MAILTO:x@y.com"`, which does
not begin with the characters `mailto:`, the icon links to the value itself
and not to `"mailto:MAILTO:x@y.com"`. -/
theorem iconRow_exact_prefix_counterexample :
    ¬ ("mailto:".data <+: "MAILTO:x@y.com".data) ∧
    (childNodes (personLinks personCapitalMailto)).map iconDescriptor
      = [(some "Email", some "MAILTO:x@y.com")] ∧
    expectedIcons mailtoLinkExact personCapitalMailto
      = [(some "Email", some "mailto:MAILTO:x@y.com")] ∧
    ¬ IconRowAsStated personCapitalMailto := by
  unfold IconRowAsStated
  decide

/-- C5, amended: the icon row of a person is Email, Google Scholar, GitHub,
Homepage, in this order, restricted to the channels whose source value is
present and not `"#"`; the link of an icon is its source value, except that
an e-mail value that does not begin with `mailto:` in any letter case is
linked as `"mailto:" ++ value`. -/
theorem iconRow_channels (p : Person) :
    (childNodes (personLinks p)).map iconDescriptor = expectedIcons mailtoLinkAnyCase p := by
  have hmail : iconLink "Email" = mailtoLinkAnyCase := by
    funext v
    simp only [iconLink, mailtoLinkAnyCase, isMailto]
    by_cases hm : startsWithIgnoreCase "mailto:" v = true <;> simp [hm]
  have hother : ∀ label : String, label ≠ "Email" → iconLink label = fun v => v := by
    intro label hl
    funext v
    simp [iconLink, hl]
  rw [personLinks_eq]
  simp only [childNodes, iconSlots, List.flatMap_cons, List.flatMap_nil, List.append_nil,
    List.map_append, makeIcon_descriptor, expectedIcons, List.append_assoc]
  rw [hmail, hother "Google Scholar" (by decide), hother "GitHub" (by decide),
    hother "Homepage" (by decide)]

/-- C5, amended, on the persons of the specification: an e-mail address alone
gives one icon linking to `mailto:x@y.com`; a homepage `"#"` gives no
Homepage icon. -/
theorem iconRow_channels_witness :
    (childNodes (personLinks personEmailOnly)).map iconDescriptor
      = [(some "Email", some "mailto:x@y.com")] ∧
    (childNodes (personLinks personNoHomepage)).map iconDescriptor
      = [(some "GitHub", some "https://github.com/hp")] :=
  ⟨(iconRow_channels personEmailOnly).trans (by decide),
   (iconRow_channels personNoHomepage).trans (by decide)⟩

/-- C6 as stated fails: the links `"https:/x.org"` and `"HTTP:x.org"` have
scheme https and http, yet the icons `makeIcon` builds for them carry neither
`target` nor `rel`. -/
theorem makeIcon_scheme_counterexample :
    urlScheme "https:/x.org" = some "https" ∧
    (makeIcon (some "https:/x.org") "Homepage" "🏠").map
        (fun n => (getAttribute n "href", getAttribute n "target", getAttribute n "rel"))
      = some (some "https:/x.org", none, none) ∧
    urlScheme "HTTP:x.org" = some "http" ∧
    (makeIcon (some "HTTP:x.org") "GitHub" "🐙").map
        (fun n => (getAttribute n "href", getAttribute n "target", getAttribute n "rel"))
      = some (some "HTTP:x.org", none, none) ∧
    ¬ NewContextAsStated (some "https:/x.org") "Homepage" "🏠" := by
  refine ⟨by decide, by decide, by decide, by decide, ?_⟩
  intro h
  have h2 := h _ "https:/x.org"
    (makeIcon_present "https:/x.org" "Homepage" "🏠" (by decide) (by decide))
    (by decide) (Or.inr (by decide))
  exact absurd h2.1 (by decide)

/-- C6, amended: an icon returned by `makeIcon`, for any label and any source
value, whose link begins with `http://` or `https://` (letter case ignored)
has `target` equal to `_blank` and a `rel` attribute whose words include
`noopener` and `noreferrer`. -/
theorem makeIcon_http_new_context (href : Option String) (label glyph : String) (icon : Node)
    (link : String) (hicon : makeIcon href label glyph = some icon)
    (hlink : getAttribute icon "href" = some link)
    (hhttp : beginsWithAnyCase "http://" link ∨ beginsWithAnyCase "https://" link) :
    getAttribute icon "target" = some "_blank" ∧
    ∃ rel, getAttribute icon "rel" = some rel ∧
      "noopener" ∈ tokens rel ∧ "noreferrer" ∈ tokens rel := by
  have htest : isHttpLink link = true := by
    unfold isHttpLink
    rcases hhttp with h | h
    · rw [startsWithIgnoreCase_of_begins _ _ h]; rfl
    · rw [startsWithIgnoreCase_of_begins _ _ h, Bool.or_true]
  cases href with
  | none => simp [makeIcon] at hicon
  | some v =>
    by_cases h1 : v = ""
    · subst h1; simp [makeIcon] at hicon
    · by_cases h2 : v = "#"
      · subst h2; simp [makeIcon] at hicon
      · rw [makeIcon_present v label glyph h1 h2] at hicon
        injection hicon with hicon
        subst hicon
        have hl : iconLink label v = link := by
          simpa [getAttribute] using hlink
        rw [hl, if_pos htest]
        refine ⟨by simp [getAttribute], "noopener noreferrer", by simp [getAttribute], ?_, ?_⟩
          <;> decide

/-- C6, amended, on a GitHub link written with a capitalised scheme and on a
homepage with a plain `http://` link. -/
theorem makeIcon_http_new_context_witness :
    (∃ icon, makeIcon (some "HTTPS://github.com/x") "GitHub" "🐙" = some icon ∧
      getAttribute icon "href" = some "HTTPS://github.com/x" ∧
      beginsWithAnyCase "https://" "HTTPS://github.com/x" ∧
      getAttribute icon "target" = some "_blank" ∧
      ∃ rel, getAttribute icon "rel" = some rel ∧
        "noopener" ∈ tokens rel ∧ "noreferrer" ∈ tokens rel) ∧
    (∃ icon, makeIcon (some "http://ray.org") "Homepage" "🏠" = some icon ∧
      getAttribute icon "href" = some "http://ray.org" ∧
      beginsWithAnyCase "http://" "http://ray.org" ∧
      getAttribute icon "target" = some "_blank" ∧
      getAttribute icon "rel" = some "noopener noreferrer") :=
  ⟨⟨_, makeIcon_present "HTTPS://github.com/x" "GitHub" "🐙" (by decide) (by decide),
      by decide, by decide,
      makeIcon_http_new_context (some "HTTPS://github.com/x") "GitHub" "🐙" _
        "HTTPS://github.com/x"
        (makeIcon_present "HTTPS://github.com/x" "GitHub" "🐙" (by decide) (by decide))
        (by decide) (Or.inr (by decide))⟩,
    ⟨_, makeIcon_present "http://ray.org" "Homepage" "🏠" (by decide) (by decide),
      by decide, by decide,
      (makeIcon_http_new_context (some "http://ray.org") "Homepage" "🏠" _ "http://ray.org"
        (makeIcon_present "http://ray.org" "Homepage" "🏠" (by decide) (by decide))
        (by decide) (Or.inl (by decide))).1,
      by decide⟩⟩

/-! ## Cards -/

/-- C8: the children of a card are, in this order, the image, the name
heading, the icon row, a co-advisor line with text
`"Co-advised with " ++ co_advisor` exactly when a co-advisor is present, and a
period line with text `formatPeriod start end` exactly when that text is
non-empty; the image has alt text `"Portrait of " ++ name` and as source the
`img` field or else the placeholder path; the heading holds the name link,
whose target is `website` when present and not `"#"`, and `"#"` otherwise. -/
theorem card_layout (p : Person) :
    ∃ img heading nameLink : Node,
      childNodes (card p) =
        [img, heading, personLinks p] ++
          listWhenPresent p.co_advisor (fun c => metaLine ("Co-advised with " ++ c)) ++
          (if formatPeriod p.start p.end_ = "" then []
           else [metaLine (formatPeriod p.start p.end_)]) ∧
      tagName img = some "img" ∧
      getAttribute img "alt" = some ("Portrait of " ++ p.name) ∧
      getAttribute img "src" = some (portraitSource p) ∧
      tagName heading = some "h3" ∧
      childNodes heading = [nameLink] ∧
      tagName nameLink = some "a" ∧
      getAttribute nameLink "href" = some (nameTarget p) ∧
      textOf nameLink = p.name := by
  rw [card_eq]
  refine ⟨_, _, _, rfl, rfl, ?_, ?_, rfl, rfl, rfl, ?_, ?_⟩
  · simp [getAttribute]
  · simp [getAttribute]
  · simp [getAttribute]
  · by_cases h : p.name = ""
    · simp [textOf, join, h]
    · simp [textOf, join, h]

/-- C8 on a student with every field of the card set. -/
theorem card_layout_witness :
    (childNodes (card studentFull)).map tagName
      = [some "img", some "h3", some "div", some "p", some "p"] ∧
    ((childNodes (card studentFull)).drop 3).map textOf
      = ["Co-advised with B. Kim", "2021 - "] ∧
    ∃ img heading nameLink : Node,
      childNodes (card studentFull) =
        [img, heading, personLinks studentFull] ++
          listWhenPresent studentFull.co_advisor
            (fun c => metaLine ("Co-advised with " ++ c)) ++
          (if formatPeriod studentFull.start studentFull.end_ = "" then []
           else [metaLine (formatPeriod studentFull.start studentFull.end_)]) ∧
      tagName img = some "img" ∧
      getAttribute img "alt" = some ("Portrait of " ++ studentFull.name) ∧
      getAttribute img "src" = some (portraitSource studentFull) ∧
      tagName heading = some "h3" ∧
      childNodes heading = [nameLink] ∧
      tagName nameLink = some "a" ∧
      getAttribute nameLink "href" = some (nameTarget studentFull) ∧
      textOf nameLink = studentFull.name :=
  ⟨by decide, by decide, card_layout studentFull⟩

/-! ## Rendering -/

/-- C7: when the target container exists, `renderGrid` leaves in it exactly
the cards of the people, in input order, whatever it held before, leaves every
other container as it was, and a second call with the same arguments changes
nothing; the same holds for `renderAlumniList` and the alumni entries. -/
theorem render_idempotent_replace (id : String) (people : List Person) (doc : Document)
    (hexists : (getElementById doc id).isSome = true) :
    (renderGrid id people doc id = some (people.map card) ∧
      (∀ doc2 : Document, (getElementById doc2 id).isSome = true →
        renderGrid id people doc2 id = renderGrid id people doc id) ∧
      (∀ j : String, j ≠ id → renderGrid id people doc j = doc j) ∧
      renderGrid id people (renderGrid id people doc) = renderGrid id people doc) ∧
    (renderAlumniList id people doc id = some (people.map alumniItem) ∧
      (∀ doc2 : Document, (getElementById doc2 id).isSome = true →
        renderAlumniList id people doc2 id = renderAlumniList id people doc id) ∧
      (∀ j : String, j ≠ id → renderAlumniList id people doc j = doc j) ∧
      renderAlumniList id people (renderAlumniList id people doc)
        = renderAlumniList id people doc) := by
  have hmap : people.map alumniItem = people.map alumniEntry := by
    simp [alumniItem_eq]
  have hsome : ∀ (d : Document) (kids : List Node), (getElementById d id).isSome = true →
      setChildren d id kids id = some kids := by
    intro d kids hd
    rw [setChildren_same]
    unfold getElementById at hd
    cases hdi : d id with
    | none => rw [hdi] at hd; simp at hd
    | some old => rfl
  simp only [renderGrid_eq, renderAlumniList_eq, hmap, setChildren_idem]
  refine ⟨⟨hsome doc _ hexists, ?_, ?_, trivial⟩, ⟨hsome doc _ hexists, ?_, ?_, trivial⟩⟩
  · intro doc2 h2
    rw [hsome doc2 _ h2, hsome doc _ hexists]
  · intro j hj
    exact setChildren_other doc id j _ hj
  · intro doc2 h2
    rw [hsome doc2 _ h2, hsome doc _ hexists]
  · intro j hj
    exact setChildren_other doc id j _ hj

/-- C7 on a page whose containers hold stale content. -/
theorem render_idempotent_replace_witness :
    (getElementById (hostPage [metaLine "stale"]) "phd-grid").isSome = true ∧
    renderGrid "phd-grid" [studentFull, personEmailOnly] (hostPage [metaLine "stale"]) "phd-grid"
      = some [card studentFull, card personEmailOnly] ∧
    renderGrid "phd-grid" [studentFull, personEmailOnly]
        (renderGrid "phd-grid" [studentFull, personEmailOnly] (hostPage [metaLine "stale"]))
      = renderGrid "phd-grid" [studentFull, personEmailOnly] (hostPage [metaLine "stale"]) ∧
    renderAlumniList "phd-grid" [studentFull, personEmailOnly]
        (renderAlumniList "phd-grid" [studentFull, personEmailOnly]
          (hostPage [metaLine "stale"]))
      = renderAlumniList "phd-grid" [studentFull, personEmailOnly]
          (hostPage [metaLine "stale"]) :=
  ⟨by decide,
   (render_idempotent_replace "phd-grid" [studentFull, personEmailOnly]
      (hostPage [metaLine "stale"]) (by decide)).1.1,
   (render_idempotent_replace "phd-grid" [studentFull, personEmailOnly]
      (hostPage [metaLine "stale"]) (by decide)).1.2.2.2,
   (render_idempotent_replace "phd-grid" [studentFull, personEmailOnly]
      (hostPage [metaLine "stale"]) (by decide)).2.2.2.2⟩

/-! ## The pipeline -/

/-- C9: when the fetch succeeds and the body parses, and the six containers
exist, the chain settles without error and leaves in `phd-grid`, `ms-grid` and
`ug-grid` one card per record of `phd_students`, `ms_students` and
`ug_students` (a missing sequence counting as empty), and in each alumni list
one entry with text `alumniLine record` per record of the matching bucket of
`bucketAlumni alumni`. -/
theorem run_success (res : Response) (data : Option Dataset) (doc : Document)
    (hok : res.ok = true) (hjson : res.json = .ok data)
    (hpresent : ∀ id ∈ gridIds ++ alumniListIds, (getElementById doc id).isSome = true) :
    ∃ doc' : Document, run (.ok res) doc = .ok doc' ∧
      doc' "phd-grid" = some ((sequenceOrEmpty data (fun d => d.phd_students)).map card) ∧
      doc' "ms-grid" = some ((sequenceOrEmpty data (fun d => d.ms_students)).map card) ∧
      doc' "ug-grid" = some ((sequenceOrEmpty data (fun d => d.ug_students)).map card) ∧
      doc' "alumni-phd-list" =
        some ((bucketAlumni (sequenceOrEmpty data (fun d => d.alumni))).phd.map alumniEntry) ∧
      doc' "alumni-ms-list" =
        some ((bucketAlumni (sequenceOrEmpty data (fun d => d.alumni))).ms.map alumniEntry) ∧
      doc' "alumni-ug-list" =
        some ((bucketAlumni (sequenceOrEmpty data (fun d => d.alumni))).ug.map alumniEntry) := by
  have hrun : run (.ok res) doc = onData data doc := by
    simp [run, onResponse, hok, hjson, bind, Except.bind, onData]
  have h1 := setChildren_of_isSome doc "phd-grid"
    ((sequenceOrEmpty data (fun d => d.phd_students)).map card) (hpresent _ (by decide))
  have h2 := setChildren_of_isSome doc "ms-grid"
    ((sequenceOrEmpty data (fun d => d.ms_students)).map card) (hpresent _ (by decide))
  have h3 := setChildren_of_isSome doc "ug-grid"
    ((sequenceOrEmpty data (fun d => d.ug_students)).map card) (hpresent _ (by decide))
  have h4 := setChildren_of_isSome doc "alumni-phd-list"
    ((bucketAlumni (sequenceOrEmpty data (fun d => d.alumni))).phd.map alumniEntry)
    (hpresent _ (by decide))
  have h5 := setChildren_of_isSome doc "alumni-ms-list"
    ((bucketAlumni (sequenceOrEmpty data (fun d => d.alumni))).ms.map alumniEntry)
    (hpresent _ (by decide))
  have h6 := setChildren_of_isSome doc "alumni-ug-list"
    ((bucketAlumni (sequenceOrEmpty data (fun d => d.alumni))).ug.map alumniEntry)
    (hpresent _ (by decide))
  rw [hrun, onData_eq]
  refine ⟨_, rfl, ?_, ?_, ?_, ?_, ?_, ?_⟩
  · rw [← h1]; simp [setChildren]
  · rw [← h2]; simp [setChildren]
  · rw [← h3]; simp [setChildren]
  · rw [← h4]; simp [setChildren]
  · rw [← h5]; simp [setChildren]
  · rw [← h6]; simp [setChildren]

/-- C9 on the dataset of the specification: one Ph.D. student and one alumnus
of level `"M.S."` on a page with six empty containers give one card in
`phd-grid`, one entry in `alumni-ms-list`, and leave the other four empty. -/
theorem run_success_witness :
    ∃ doc' : Document, run (.ok okResponse) (hostPage []) = .ok doc' ∧
      doc' "phd-grid" = some [card studentFull] ∧
      doc' "ms-grid" = some [] ∧
      doc' "ug-grid" = some [] ∧
      doc' "alumni-phd-list" = some [] ∧
      doc' "alumni-ms-list" = some [alumniEntry alumnusMs] ∧
      doc' "alumni-ug-list" = some [] :=
  run_success okResponse (some smallDataset) (hostPage []) rfl rfl (by decide)

/-- C10: when the fetch resolves with a non-success status, or the body fails
to parse, the chain settles without error; each grid container of the page
then holds exactly one paragraph of class `muted` reading "Could not load
data. Check students.json." (the file name in a `code` element), and each
alumni list exactly one list item of class `muted` reading "Could not load
alumni. Check students.json."; a container missing from the page stays
missing, and no container holds a card or an alumni entry built from data. -/
theorem run_failure (res : Response) (doc : Document)
    (hfail : res.ok = false ∨ ∃ e, res.json = .error e) :
    ∃ doc' : Document, run (.ok res) doc = .ok doc' ∧
      (∀ id ∈ ["phd-grid", "ms-grid", "ug-grid"],
        doc' id = (doc id).map (fun _ =>
          [Node.element "p" [("class", "muted")]
            [Node.text "Could not load data. Check ",
             Node.element "code" [] [Node.text "students.json"], Node.text "."]])) ∧
      (∀ id ∈ ["alumni-phd-list", "alumni-ms-list", "alumni-ug-list"],
        doc' id = (doc id).map (fun _ =>
          [Node.element "li" [("class", "muted")]
            [Node.text "Could not load alumni. Check ",
             Node.element "code" [] [Node.text "students.json"], Node.text "."]])) ∧
      (∀ id ∈ ["phd-grid", "ms-grid", "ug-grid", "alumni-phd-list", "alumni-ms-list",
          "alumni-ug-list"], ∀ kids, doc' id = some kids →
        ∀ p : Person, card p ∉ kids ∧ alumniItem p ∉ kids) := by
  have hrun : ∃ err, run (.ok res) doc = .ok (onError err doc) := by
    by_cases hok : res.ok = true
    · rcases hfail with h | ⟨e, he⟩
      · rw [hok] at h; cases h
      · exact ⟨e, by simp [run, onResponse, hok, he, bind, Except.bind]⟩
    · have hok' : res.ok = false := by simpa using hok
      exact ⟨"HTTP " ++ toString res.status,
        by simp [run, onResponse, hok', bind, Except.bind]⟩
  obtain ⟨err, herr⟩ := hrun
  have hgrid : ∀ id ∈ ["phd-grid", "ms-grid", "ug-grid"],
      onError err doc id = (doc id).map (fun _ => gridPlaceholder) := by
    intro id hid
    rw [onError_eq]
    simp only [List.mem_cons, List.mem_singleton, List.not_mem_nil, or_false] at hid
    rcases hid with h | h | h <;> subst h <;> simp [setChildren]
  have hlist : ∀ id ∈ ["alumni-phd-list", "alumni-ms-list", "alumni-ug-list"],
      onError err doc id = (doc id).map (fun _ => alumniPlaceholder) := by
    intro id hid
    rw [onError_eq]
    simp only [List.mem_cons, List.mem_singleton, List.not_mem_nil, or_false] at hid
    rcases hid with h | h | h <;> subst h <;> simp [setChildren]
  have hg : gridPlaceholder =
      [Node.element "p" [("class", "muted")]
            [Node.text "Could not load data. Check ",
             Node.element "code" [] [Node.text "students.json"], Node.text "."]] := rfl
  have ha : alumniPlaceholder =
      [Node.element "li" [("class", "muted")]
            [Node.text "Could not load alumni. Check ",
             Node.element "code" [] [Node.text "students.json"], Node.text "."]] := rfl
  refine ⟨onError err doc, herr, ?_, ?_, ?_⟩
  · intro id hid
    rw [hgrid id hid, hg]
  · intro id hid
    rw [hlist id hid, ha]
  · intro id hid kids hkids p
    have hid' : id ∈ ["phd-grid", "ms-grid", "ug-grid"] ∨
        id ∈ ["alumni-phd-list", "alumni-ms-list", "alumni-ug-list"] := by
      simp only [List.mem_cons, List.mem_singleton, List.not_mem_nil, or_false] at hid ⊢
      tauto
    have hk : kids = gridPlaceholder ∨ kids = alumniPlaceholder := by
      rcases hid' with h | h
      · rw [hgrid id h] at hkids
        cases hd : doc id with
        | none => rw [hd] at hkids; cases hkids
        | some old => rw [hd] at hkids; left; exact (Option.some.inj hkids).symm
      · rw [hlist id h] at hkids
        cases hd : doc id with
        | none => rw [hd] at hkids; cases hkids
        | some old => rw [hd] at hkids; right; exact (Option.some.inj hkids).symm
    rcases hk with h | h <;> subst h
    · exact ⟨(card_not_placeholder p).1, (alumniItem_not_placeholder p).1⟩
    · exact ⟨(card_not_placeholder p).2, (alumniItem_not_placeholder p).2⟩

/-- C10 on a 404 response on a page whose containers hold stale content, and
on a body that does not parse. -/
theorem run_failure_witness :
    notFoundResponse.ok = false ∧
    (∃ doc' : Document, run (.ok notFoundResponse) (hostPage [metaLine "stale"]) = .ok doc' ∧
      (∀ id ∈ ["phd-grid", "ms-grid", "ug-grid"],
        doc' id = some
          [Node.element "p" [("class", "muted")]
            [Node.text "Could not load data. Check ",
             Node.element "code" [] [Node.text "students.json"], Node.text "."]]) ∧
      (∀ id ∈ ["alumni-phd-list", "alumni-ms-list", "alumni-ug-list"],
        doc' id = some
          [Node.element "li" [("class", "muted")]
            [Node.text "Could not load alumni. Check ",
             Node.element "code" [] [Node.text "students.json"], Node.text "."]]) ∧
      doc' "sidebar" = none) ∧
    (∃ doc' : Document, run (.ok garbledResponse) (hostPage []) = .ok doc' ∧
      doc' "ms-grid" = some
          [Node.element "p" [("class", "muted")]
            [Node.text "Could not load data. Check ",
             Node.element "code" [] [Node.text "students.json"], Node.text "."]] ∧
      doc' "alumni-ug-list" = some
          [Node.element "li" [("class", "muted")]
            [Node.text "Could not load alumni. Check ",
             Node.element "code" [] [Node.text "students.json"], Node.text "."]]) := by
  obtain ⟨d1, r1, g1, l1, _⟩ :=
    run_failure notFoundResponse (hostPage [metaLine "stale"]) (Or.inl rfl)
  obtain ⟨d2, r2, g2, l2, _⟩ :=
    run_failure garbledResponse (hostPage []) (Or.inr ⟨"Unexpected token", rfl⟩)
  refine ⟨rfl, ⟨d1, r1, ?_, ?_, ?_⟩, ⟨d2, r2, g2 _ (by decide), l2 _ (by decide)⟩⟩
  · intro id hid
    rw [g1 id hid]
    simp only [List.mem_cons, List.mem_singleton, List.not_mem_nil, or_false] at hid
    rcases hid with h | h | h <;> subst h <;> rfl
  · intro id hid
    rw [l1 id hid]
    simp only [List.mem_cons, List.mem_singleton, List.not_mem_nil, or_false] at hid
    rcases hid with h | h | h <;> subst h <;> rfl
  · have hside : d1 = onError ("HTTP " ++ toString 404) (hostPage [metaLine "stale"]) := by
      have h404 : run (.ok notFoundResponse) (hostPage [metaLine "stale"])
          = .ok (onError ("HTTP " ++ toString 404) (hostPage [metaLine "stale"])) := by
        simp [run, onResponse, notFoundResponse, bind, Except.bind]
      rw [h404] at r1
      exact (Except.ok.inj r1).symm
    rw [hside, onError_eq]
    simp [setChildren, hostPage]

end People
